import Mathlib

/-!
# Verification of the Pomodoro timer engine (`app.js`)

A shallow embedding of the `PomodoroTimer` class of `app.js` (the current
revision of the application; the unnamed duplicate file is an earlier
revision of the same script).  JavaScript numbers are integer-valued
throughout the engine, so times and durations are modelled as `Nat`
(epoch milliseconds), with `Math.max(0, x)` followed by storage into a
non-negative quantity modelled through `Int` and `Int.toNat`.

Each method that reads `Date.now()` takes the current clock value `now`
as an explicit argument.  The `setInterval` callback body is modelled by
`tick`; the existence of an active interval (`_intervalId !== null`) is
modelled by the boolean field `tickerActive`.  Outward effects (listener
notifications, the alarm sound, the desktop notification) are modelled
as an `Event` list returned next to the new state.
-/

namespace Pomodoro

/-- The `Mode` enumeration of `app.js` (`Work`, `Short Break`, `Long Break`). -/
inductive Mode where
  | Work
  | Short
  | Long
deriving DecidableEq

/-- The string value frozen in the `Mode` object of `app.js`. -/
def modeStr : Mode → String
  | Mode.Work => "Work"
  | Mode.Short => "Short Break"
  | Mode.Long => "Long Break"

/-- The settings fields of `app.js` that the timer engine itself reads.
(The remaining persisted fields — theme, alarm sound, volume, ambient
parameters, notifications toggle — are presentation-only and never read
by `PomodoroTimer`.) -/
structure Settings where
  workMinutes : Nat
  shortMinutes : Nat
  longMinutes : Nat
  cyclesPerRound : Nat
  autoStart : Bool
deriving DecidableEq

/-- The validity condition on configurations stated in the design
(§3: all durations ≥ 1 minute, cycles-per-round ≥ 1), which is what the
`clampInt` bounds of the settings form guarantee (`1..180`, `1..60`,
`1..60`, `1..12`). -/
def validSettings (s : Settings) : Bool :=
  decide (1 ≤ s.workMinutes) && decide (1 ≤ s.shortMinutes) &&
  decide (1 ≤ s.longMinutes) && decide (1 ≤ s.cyclesPerRound)

/-- The JavaScript `Math.max(0, x)` stored back into a non-negative integer quantity. -/
def max0ToNat (x : Int) : Nat := (max 0 x).toNat

/-- The mutable instance fields of `PomodoroTimer`.  `startedAt`, `endAt`
and `_lastTick` are `null`-able epoch-millisecond numbers (`Option Nat`);
`tickerActive` models `_intervalId !== null`. -/
structure TimerState where
  settings : Settings
  mode : Mode
  cycleInRound : Nat
  round : Nat
  isRunning : Bool
  startedAt : Option Nat
  endAt : Option Nat
  remainingMs : Nat
  tickerActive : Bool
  lastTick : Option Nat
deriving DecidableEq

/-- Method `_modeToMs(mode)`: minutes of the given mode under the current
settings, times `60 * 1000`. -/
def modeToMs (s : Settings) (m : Mode) : Nat :=
  (match m with
    | Mode.Work => s.workMinutes
    | Mode.Short => s.shortMinutes
    | Mode.Long => s.longMinutes) * 60 * 1000

/-- The snapshot object passed to the `onChange` listener by `_emit`. -/
structure Snapshot where
  mode : Mode
  remainingMs : Nat
  cycleInRound : Nat
  round : Nat
  totalMs : Nat
  isRunning : Bool
  modeChanged : Bool
deriving DecidableEq

/-- Outward effects of the engine: a listener notification (`_emit`), the
alarm sound (`beep()`), and the desktop notification (`notify(title, body)`). -/
inductive Event where
  | emit (s : Snapshot)
  | beep
  | notifyEv (title : String) (body : String)
deriving DecidableEq

/-- The snapshot `_emit(modeChanged)` builds from the current state. -/
def snap (t : TimerState) (modeChanged : Bool) : Snapshot :=
  { mode := t.mode
    remainingMs := t.remainingMs
    cycleInRound := t.cycleInRound
    round := t.round
    totalMs := modeToMs t.settings t.mode
    isRunning := t.isRunning
    modeChanged := modeChanged }

/-- The constructor of `PomodoroTimer`. -/
def initState (s : Settings) : TimerState :=
  { settings := s
    mode := Mode.Work
    cycleInRound := 1
    round := 1
    isRunning := false
    startedAt := none
    endAt := none
    remainingMs := modeToMs s Mode.Work
    tickerActive := false
    lastTick := none }

/-- Method `start()`: no-op when already running; otherwise set `isRunning`,
record `startedAt`, compute `endAt = now + remainingMs` from the current
remaining time, record `_lastTick`, and ensure the interval ticker. -/
def start (now : Nat) (t : TimerState) : TimerState :=
  if t.isRunning then t
  else
    { t with
      isRunning := true
      startedAt := some now
      endAt := some (now + t.remainingMs)
      lastTick := some now
      tickerActive := true }

/-- Method `pause()`: no-op when not running; otherwise clear `isRunning`, lock
in `remainingMs = Math.max(0, endAt - now)` when `endAt` is non-null,
clear `endAt`, and clear the interval. -/
def pause (now : Nat) (t : TimerState) : TimerState :=
  if !t.isRunning then t
  else
    let t1 := { t with isRunning := false }
    let t2 :=
      match t1.endAt with
      | some e => { t1 with remainingMs := max0ToNat ((e : Int) - (now : Int)) }
      | none => t1
    { t2 with endAt := none, tickerActive := false }

/-- Method `reset()`: pause, then restore the full duration of the current mode
and null out `startedAt` / `endAt`. -/
def reset (now : Nat) (t : TimerState) : TimerState :=
  let t1 := pause now t
  { t1 with
    remainingMs := modeToMs t1.settings t1.mode
    startedAt := none
    endAt := none }

/-- Method `_advanceMode()`: Work advances to Long Break (resetting the cycle and
incrementing the round) when `cycleInRound >= cyclesPerRound`, else to
Short Break (incrementing the cycle); either break advances to Work.  The
new mode's full duration is installed, then the session is auto-started
(when `settings.autoStart`) or left paused with `startedAt`/`endAt`
nulled.  Finally `_emit(true)` fires. -/
def advanceMode (now : Nat) (t : TimerState) : TimerState × List Event :=
  let t1 :=
    match t.mode with
    | Mode.Work =>
      if t.settings.cyclesPerRound ≤ t.cycleInRound then
        { t with mode := Mode.Long, cycleInRound := 1, round := t.round + 1 }
      else
        { t with mode := Mode.Short, cycleInRound := t.cycleInRound + 1 }
    | _ => { t with mode := Mode.Work }
  let t2 := { t1 with remainingMs := modeToMs t1.settings t1.mode }
  let t3 :=
    if t2.settings.autoStart then
      { t2 with
        isRunning := true
        startedAt := some now
        endAt := some (now + t2.remainingMs)
        tickerActive := true }
    else
      { t2 with isRunning := false, startedAt := none, endAt := none }
  (t3, [Event.emit (snap t3 true)])

/-- Method `skip()`: just `_advanceMode()`. -/
def skip (now : Nat) (t : TimerState) : TimerState × List Event :=
  advanceMode now t

/-- Method `_onComplete()`: pause, play the alarm, fire the notification with the
completed mode's label, then advance the mode. -/
def onComplete (now : Nat) (t : TimerState) : TimerState × List Event :=
  let t1 := pause now t
  let r := advanceMode now t1
  (r.1,
   Event.beep ::
   Event.notifyEv (modeStr t1.mode ++ " completed") "Time to switch!" ::
   r.2)

/-- The recompute step of the `setInterval` callback: record `_lastTick`,
then (when `endAt` is non-null) set `remainingMs = Math.max(0, endAt - now)`
from the absolute end time. -/
def tickRecompute (now : Nat) (t : TimerState) : TimerState :=
  let t1 := { t with lastTick := some now }
  match t1.endAt with
  | some e => { t1 with remainingMs := max0ToNat ((e : Int) - (now : Int)) }
  | none => t1

/-- One invocation of the `setInterval` callback: return immediately when
not running; otherwise recompute the remaining time, fire `_onComplete()`
when it reached 0, else `_emit()` an ordinary (modeChanged = false) tick. -/
def tick (now : Nat) (t : TimerState) : TimerState × List Event :=
  if !t.isRunning then (t, [])
  else
    let t1 := tickRecompute now t
    if t1.remainingMs = 0 then onComplete now t1
    else (t1, [Event.emit (snap t1 false)])

/-- Method `setSettings(nextSettings)`: remember whether the engine was running,
pause, install the new settings, reset `remainingMs` to the current
mode's (new) full duration, restart when it had been running, then always
`_emit(true)`. -/
def setSettings (now : Nat) (next : Settings) (t : TimerState) :
    TimerState × List Event :=
  let preservedRunning := t.isRunning
  let t1 := pause now t
  let t2 := { t1 with settings := next }
  let t3 := { t2 with remainingMs := modeToMs t2.settings t2.mode }
  let t4 := if preservedRunning then start now t3 else t3
  (t4, [Event.emit (snap t4 true)])

/-- The mode-button click handler of `app.js`: pause when running, force
the chosen mode with its full duration, null `startedAt`/`endAt`, then
`_emit(true)`. -/
def setMode (now : Nat) (m : Mode) (t : TimerState) :
    TimerState × List Event :=
  let t1 := if t.isRunning then pause now t else t
  let t2 :=
    { t1 with
      mode := m
      remainingMs := modeToMs t1.settings m
      startedAt := none
      endAt := none }
  (t2, [Event.emit (snap t2 true)])

/-- Whether an event is one of the completion collaborators (alarm sound
or desktop notification), as opposed to a listener notification. -/
def isAlarmEv : Event → Bool
  | Event.beep => true
  | Event.notifyEv _ _ => true
  | Event.emit _ => false

/-! ## Basic lemmas -/

/-- Applying `Math.max(0, e - n)` on epoch milliseconds is truncated subtraction. -/
lemma max0ToNat_coe_sub (e n : Nat) :
    max0ToNat ((e : Int) - (n : Int)) = e - n := by
  unfold max0ToNat
  rcases le_total ((e : Int) - (n : Int)) 0 with h | h
  · rw [max_eq_left h]
    omega
  · rw [max_eq_right h]
    omega

/-- A default configuration (the `defaultSettings` literal of `app.js`,
restricted to the engine-relevant fields). -/
def defaultEngineSettings : Settings :=
  { workMinutes := 25
    shortMinutes := 5
    longMinutes := 15
    cyclesPerRound := 4
    autoStart := false }

/-! ## Field lemmas for the engine operations -/

@[simp]
lemma pause_mode (now : Nat) (t : TimerState) : (pause now t).mode = t.mode := by
  by_cases hr : t.isRunning <;> cases hEnd : t.endAt <;> simp [pause, hr, hEnd]

@[simp]
lemma pause_settings (now : Nat) (t : TimerState) :
    (pause now t).settings = t.settings := by
  by_cases hr : t.isRunning <;> cases hEnd : t.endAt <;> simp [pause, hr, hEnd]

@[simp]
lemma pause_cycleInRound (now : Nat) (t : TimerState) :
    (pause now t).cycleInRound = t.cycleInRound := by
  by_cases hr : t.isRunning <;> cases hEnd : t.endAt <;> simp [pause, hr, hEnd]

@[simp]
lemma pause_round (now : Nat) (t : TimerState) :
    (pause now t).round = t.round := by
  by_cases hr : t.isRunning <;> cases hEnd : t.endAt <;> simp [pause, hr, hEnd]

@[simp]
lemma pause_startedAt (now : Nat) (t : TimerState) :
    (pause now t).startedAt = t.startedAt := by
  by_cases hr : t.isRunning <;> cases hEnd : t.endAt <;> simp [pause, hr, hEnd]

/-- Calling `pause` always results in a non-running engine (it is a no-op exactly
when the engine was already paused). -/
@[simp]
lemma pause_isRunning (now : Nat) (t : TimerState) :
    (pause now t).isRunning = false := by
  by_cases hr : t.isRunning <;> cases hEnd : t.endAt <;> simp [pause, hr, hEnd]

lemma pause_of_not_running (now : Nat) (t : TimerState)
    (h : t.isRunning = false) : pause now t = t := by
  simp [pause, h]

lemma pause_endAt_of_running (now : Nat) (t : TimerState)
    (h : t.isRunning = true) : (pause now t).endAt = none := by
  cases hEnd : t.endAt <;> simp [pause, h, hEnd]

lemma pause_tickerActive_of_running (now : Nat) (t : TimerState)
    (h : t.isRunning = true) : (pause now t).tickerActive = false := by
  cases hEnd : t.endAt <;> simp [pause, h, hEnd]

lemma pause_remainingMs_of_endAt (now : Nat) (t : TimerState) (e : Nat)
    (hr : t.isRunning = true) (he : t.endAt = some e) :
    (pause now t).remainingMs = e - now := by
  simp [pause, hr, he, max0ToNat_coe_sub]

lemma pause_remainingMs_of_endAt_none (now : Nat) (t : TimerState)
    (he : t.endAt = none) : (pause now t).remainingMs = t.remainingMs := by
  by_cases hr : t.isRunning <;> simp [pause, hr, he]

@[simp]
lemma tickRecompute_mode (now : Nat) (t : TimerState) :
    (tickRecompute now t).mode = t.mode := by
  cases hEnd : t.endAt <;> simp [tickRecompute, hEnd]

@[simp]
lemma tickRecompute_settings (now : Nat) (t : TimerState) :
    (tickRecompute now t).settings = t.settings := by
  cases hEnd : t.endAt <;> simp [tickRecompute, hEnd]

@[simp]
lemma tickRecompute_cycleInRound (now : Nat) (t : TimerState) :
    (tickRecompute now t).cycleInRound = t.cycleInRound := by
  cases hEnd : t.endAt <;> simp [tickRecompute, hEnd]

@[simp]
lemma tickRecompute_round (now : Nat) (t : TimerState) :
    (tickRecompute now t).round = t.round := by
  cases hEnd : t.endAt <;> simp [tickRecompute, hEnd]

@[simp]
lemma tickRecompute_isRunning (now : Nat) (t : TimerState) :
    (tickRecompute now t).isRunning = t.isRunning := by
  cases hEnd : t.endAt <;> simp [tickRecompute, hEnd]

@[simp]
lemma tickRecompute_endAt (now : Nat) (t : TimerState) :
    (tickRecompute now t).endAt = t.endAt := by
  cases hEnd : t.endAt <;> simp [tickRecompute, hEnd]

lemma tickRecompute_remainingMs_of_endAt (now : Nat) (t : TimerState) (e : Nat)
    (he : t.endAt = some e) : (tickRecompute now t).remainingMs = e - now := by
  simp [tickRecompute, he, max0ToNat_coe_sub]

@[simp]
lemma start_isRunning (now : Nat) (t : TimerState) :
    (start now t).isRunning = true := by
  by_cases hr : t.isRunning <;> simp [start, hr]

lemma start_of_running (now : Nat) (t : TimerState) (h : t.isRunning = true) :
    start now t = t := by
  simp [start, h]

@[simp]
lemma start_mode (now : Nat) (t : TimerState) : (start now t).mode = t.mode := by
  by_cases hr : t.isRunning <;> simp [start, hr]

@[simp]
lemma start_settings (now : Nat) (t : TimerState) :
    (start now t).settings = t.settings := by
  by_cases hr : t.isRunning <;> simp [start, hr]

@[simp]
lemma start_cycleInRound (now : Nat) (t : TimerState) :
    (start now t).cycleInRound = t.cycleInRound := by
  by_cases hr : t.isRunning <;> simp [start, hr]

@[simp]
lemma start_round (now : Nat) (t : TimerState) :
    (start now t).round = t.round := by
  by_cases hr : t.isRunning <;> simp [start, hr]

@[simp]
lemma start_remainingMs (now : Nat) (t : TimerState) :
    (start now t).remainingMs = t.remainingMs := by
  by_cases hr : t.isRunning <;> simp [start, hr]

lemma start_endAt_of_not_running (now : Nat) (t : TimerState)
    (h : t.isRunning = false) :
    (start now t).endAt = some (now + t.remainingMs) := by
  simp [start, h]

/-- Method `_advanceMode` always reports exactly one listener notification, with
`modeChanged = true`, built from the post-advance state. -/
lemma advance_snd (now : Nat) (t : TimerState) :
    (advanceMode now t).2 = [Event.emit (snap (advanceMode now t).1 true)] := rfl

@[simp]
lemma advance_settings (now : Nat) (t : TimerState) :
    (advanceMode now t).1.settings = t.settings := by
  cases hm : t.mode <;>
    by_cases hc : t.settings.cyclesPerRound ≤ t.cycleInRound <;>
    by_cases ha : t.settings.autoStart <;>
    simp [advanceMode, hm, hc, ha]

lemma advance_remainingMs (now : Nat) (t : TimerState) :
    (advanceMode now t).1.remainingMs
      = modeToMs t.settings (advanceMode now t).1.mode := by
  cases hm : t.mode <;>
    by_cases hc : t.settings.cyclesPerRound ≤ t.cycleInRound <;>
    by_cases ha : t.settings.autoStart <;>
    simp [advanceMode, hm, hc, ha]

lemma advance_not_running (now : Nat) (t : TimerState)
    (h : t.settings.autoStart = false) :
    (advanceMode now t).1.isRunning = false ∧
    (advanceMode now t).1.endAt = none := by
  cases hm : t.mode <;>
    by_cases hc : t.settings.cyclesPerRound ≤ t.cycleInRound <;>
    simp [advanceMode, hm, hc, h]

lemma advance_running (now : Nat) (t : TimerState)
    (h : t.settings.autoStart = true) :
    (advanceMode now t).1.isRunning = true ∧
    (advanceMode now t).1.endAt
      = some (now + (advanceMode now t).1.remainingMs) := by
  cases hm : t.mode <;>
    by_cases hc : t.settings.cyclesPerRound ≤ t.cycleInRound <;>
    simp [advanceMode, hm, hc, h]

lemma tick_of_not_running (now : Nat) (t : TimerState)
    (h : t.isRunning = false) : tick now t = (t, []) := by
  simp [tick, h]

lemma tick_of_not_expired (now : Nat) (t : TimerState) (e : Nat)
    (hr : t.isRunning = true) (he : t.endAt = some e) (hlive : now < e) :
    tick now t
      = (tickRecompute now t, [Event.emit (snap (tickRecompute now t) false)]) := by
  have hne : ¬ (tickRecompute now t).remainingMs = 0 := by
    rw [tickRecompute_remainingMs_of_endAt now t e he]
    omega
  simp [tick, hr, hne]

/-! ## C1: the mode-advance algorithm -/

/-- C1.  Mode-advance (shared by natural completion and skip): from Work
with `cycleInRound ≥ cyclesPerRound` the next mode is LongBreak with the
cycle reset to 1 and the round incremented; from Work otherwise the next
mode is ShortBreak with the cycle incremented; from either break the next
mode is Work with cycle and round unchanged.  Afterwards `remainingMs` is
the new mode's full configured duration; with auto-start on, the engine
is running with `endAt` set to `now` plus that duration, and with
auto-start off it is paused with `endAt` cleared and the full duration
remaining. -/
theorem c1_mode_advance (now : Nat) (t : TimerState) :
    (t.mode = Mode.Work → t.settings.cyclesPerRound ≤ t.cycleInRound →
      (advanceMode now t).1.mode = Mode.Long ∧
      (advanceMode now t).1.cycleInRound = 1 ∧
      (advanceMode now t).1.round = t.round + 1) ∧
    (t.mode = Mode.Work → t.cycleInRound < t.settings.cyclesPerRound →
      (advanceMode now t).1.mode = Mode.Short ∧
      (advanceMode now t).1.cycleInRound = t.cycleInRound + 1 ∧
      (advanceMode now t).1.round = t.round) ∧
    (t.mode = Mode.Short ∨ t.mode = Mode.Long →
      (advanceMode now t).1.mode = Mode.Work ∧
      (advanceMode now t).1.cycleInRound = t.cycleInRound ∧
      (advanceMode now t).1.round = t.round) ∧
    (advanceMode now t).1.remainingMs
      = modeToMs t.settings (advanceMode now t).1.mode ∧
    (t.settings.autoStart = true →
      (advanceMode now t).1.isRunning = true ∧
      (advanceMode now t).1.endAt
        = some (now + modeToMs t.settings (advanceMode now t).1.mode)) ∧
    (t.settings.autoStart = false →
      (advanceMode now t).1.isRunning = false ∧
      (advanceMode now t).1.endAt = none ∧
      (advanceMode now t).1.remainingMs
        = modeToMs t.settings (advanceMode now t).1.mode) := by
  cases hm : t.mode <;>
    by_cases hc : t.settings.cyclesPerRound ≤ t.cycleInRound <;>
    by_cases ha : t.settings.autoStart <;>
    simp [advanceMode, hm, hc, ha]

/-- A concrete state for exercising C1: Work mode, cycle 4 of 4. -/
def c1state : TimerState :=
  { settings := defaultEngineSettings
    mode := Mode.Work
    cycleInRound := 4
    round := 1
    isRunning := false
    startedAt := none
    endAt := none
    remainingMs := 1500000
    tickerActive := false
    lastTick := none }

/-- Witness for C1 at a concrete end-of-round state: the advance enters
LongBreak, resets the cycle, increments the round, and (auto-start off)
leaves the engine paused with the long break's full duration. -/
theorem c1_mode_advance_witness :
    (advanceMode 0 c1state).1.mode = Mode.Long ∧
    (advanceMode 0 c1state).1.cycleInRound = 1 ∧
    (advanceMode 0 c1state).1.round = 2 ∧
    (advanceMode 0 c1state).1.isRunning = false ∧
    (advanceMode 0 c1state).1.remainingMs = 900000 := by
  have h := c1_mode_advance 0 c1state
  have h1 := h.1 rfl (by decide)
  have h6 := h.2.2.2.2.2 rfl
  refine ⟨h1.1, h1.2.1, ?_, h6.1, ?_⟩
  · rw [h1.2.2]
    decide
  · rw [h6.2.2, h1.1]
    decide

/-! ## C2: tick policy and drift resistance -/

/-- C2.  While running with absolute end time `endAt = e`, every periodic
recompute sets `remainingMs` to `max(0, e − now)` derived from the
absolute end timestamp; hence if the previous recompute happened at time
`t0` and the host stalls for `S`, the next recompute reports
`remainingMs` reduced by exactly `S` (clamped at zero, hence never
negative), strictly smaller whenever `S > 0` and time remained, and when
the session has not expired the tick stores exactly that value and emits
an ordinary tick notification. -/
theorem c2_tick_drift (t : TimerState) (e t0 S : Nat)
    (hrun : t.isRunning = true) (he : t.endAt = some e)
    (hrem : t.remainingMs = e - t0) (ht0 : t0 ≤ e) :
    (∀ n : Nat, (tickRecompute n t).remainingMs = e - n) ∧
    (tickRecompute (t0 + S) t).remainingMs = t.remainingMs - S ∧
    (0 < S → 0 < t.remainingMs →
      (tickRecompute (t0 + S) t).remainingMs < t.remainingMs) ∧
    (0 < e - (t0 + S) →
      (tick (t0 + S) t).1.remainingMs = t.remainingMs - S ∧
      (tick (t0 + S) t).2 = [Event.emit (snap (tick (t0 + S) t).1 false)]) := by
  have key : ∀ n : Nat, (tickRecompute n t).remainingMs = e - n := by
    intro n
    simp [tickRecompute, he, max0ToNat_coe_sub]
  refine ⟨key, ?_, ?_, ?_⟩
  · rw [key]
    omega
  · intro hS hpos
    rw [key]
    omega
  · intro hlive
    have hne : ¬ (tickRecompute (t0 + S) t).remainingMs = 0 := by
      rw [key]
      omega
    constructor
    · simp [tick, hrun, hne]
      rw [key]
      omega
    · simp [tick, hrun, hne]

/-- A concrete running state for exercising C2: 1 500 000 ms remain,
`endAt = 1 500 000`, last recompute at time 0. -/
def c2state : TimerState :=
  { settings := defaultEngineSettings
    mode := Mode.Work
    cycleInRound := 1
    round := 1
    isRunning := true
    startedAt := some 0
    endAt := some 1500000
    remainingMs := 1500000
    tickerActive := true
    lastTick := some 0 }

/-- Witness for C2: after a 1000 ms stall the recompute reports exactly
1000 ms less, and the tick stores it and emits one ordinary tick. -/
theorem c2_tick_drift_witness :
    (tickRecompute (0 + 1000) c2state).remainingMs = 1499000 ∧
    (tick (0 + 1000) c2state).1.remainingMs = 1499000 ∧
    (tick (0 + 1000) c2state).2
      = [Event.emit (snap (tick (0 + 1000) c2state).1 false)] := by
  have h := c2_tick_drift c2state 1500000 0 1000 rfl rfl (by decide) (by decide)
  have h4 := h.2.2.2 (by decide)
  refine ⟨?_, ?_, h4.2⟩
  · rw [h.2.1]
    decide
  · rw [h4.1]
    decide

/-! ## C3: `start()` -/

/-- C3.  `start()` is a no-op when already running (so two consecutive
`start()` calls behave like one); when paused it sets `isRunning` and
computes `endAt = now + remainingMs` from the current remaining time
(leaving `remainingMs` itself untouched), so a start/pause/start sequence
resumes from the remaining time rather than restarting. -/
theorem c3_start_resume (now now2 : Nat) (t : TimerState) :
    (t.isRunning = true → start now t = t) ∧
    start now2 (start now t) = start now t ∧
    (t.isRunning = false →
      (start now t).isRunning = true ∧
      (start now t).endAt = some (now + t.remainingMs) ∧
      (start now t).remainingMs = t.remainingMs) := by
  by_cases hr : t.isRunning <;> simp [start, hr]

/-- Witness for C3 at a concrete paused state: starting sets `endAt` from
the remaining time and a second `start` changes nothing. -/
theorem c3_start_resume_witness :
    (start 5 c1state).isRunning = true ∧
    (start 5 c1state).endAt = some (5 + c1state.remainingMs) ∧
    start 7 (start 5 c1state) = start 5 c1state := by
  have h := c3_start_resume 5 7 c1state
  have h3 := h.2.2 rfl
  exact ⟨h3.1, h3.2.1, h.2.1⟩

/-! ## C4: `pause()` -/

/-- C4.  `pause()` is a no-op when not running (so two consecutive
`pause()` calls behave like one); when running it locks in
`remainingMs = max(0, endAt − now)` from the absolute end time, clears
`endAt`, clears `isRunning`, and stops the periodic recompute. -/
theorem c4_pause_locks_in (now now2 : Nat) (t : TimerState) (e : Nat) :
    (t.isRunning = false → pause now t = t) ∧
    pause now2 (pause now t) = pause now t ∧
    (t.isRunning = true → t.endAt = some e →
      (pause now t).remainingMs = e - now ∧
      (pause now t).endAt = none ∧
      (pause now t).isRunning = false ∧
      (pause now t).tickerActive = false) := by
  refine ⟨fun h => pause_of_not_running now t h, ?_, fun hr he => ?_⟩
  · exact pause_of_not_running now2 (pause now t) (pause_isRunning now t)
  · exact ⟨pause_remainingMs_of_endAt now t e hr he,
      pause_endAt_of_running now t hr, pause_isRunning now t,
      pause_tickerActive_of_running now t hr⟩

/-- Witness for C4 at a concrete running state: pausing at time 200 locks
in `1 500 000 − 200` ms, clears `endAt`, stops the engine and the ticker,
and a second `pause` changes nothing. -/
theorem c4_pause_locks_in_witness :
    (pause 200 c2state).remainingMs = 1499800 ∧
    (pause 200 c2state).endAt = none ∧
    (pause 200 c2state).isRunning = false ∧
    (pause 200 c2state).tickerActive = false ∧
    pause 300 (pause 200 c2state) = pause 200 c2state := by
  have h := c4_pause_locks_in 200 300 c2state 1500000
  have h3 := h.2.2 rfl rfl
  refine ⟨?_, h3.2.1, h3.2.2.1, h3.2.2.2, h.2.1⟩
  · rw [h3.1]

/-! ## C5: skip is silent, natural completion fires once -/

/-- C5.  `skip()` never produces the alarm or notification collaborator
calls; natural completion (a running session whose absolute end time has
been reached) produces, in order: the alarm, the notification (for the
completed mode), and the mode-advance listener notification — each
exactly once; and a subsequent tick never re-fires completion: with
auto-start off it is a pure no-op (the engine was paused by completion),
and with auto-start on a tick before the new end time produces only an
ordinary tick notification. -/
theorem c5_skip_silent_completion_once (now now2 : Nat) (t : TimerState)
    (e : Nat) :
    ((skip now t).2.all (fun ev => !isAlarmEv ev) = true) ∧
    (t.isRunning = true → t.endAt = some e → e ≤ now →
      (tick now t).2
        = [Event.beep,
           Event.notifyEv (modeStr t.mode ++ " completed") "Time to switch!",
           Event.emit (snap (tick now t).1 true)] ∧
      (t.settings.autoStart = false →
        tick now2 (tick now t).1 = ((tick now t).1, [])) ∧
      (t.settings.autoStart = true → ∀ e2 : Nat,
        (tick now t).1.endAt = some e2 → now2 < e2 →
        (tick now2 (tick now t).1).2.all (fun ev => !isAlarmEv ev) = true)) := by
  constructor
  · rfl
  intro hrun he hdone
  have h0 : (tickRecompute now t).remainingMs = 0 := by
    rw [tickRecompute_remainingMs_of_endAt now t e he]
    omega
  have htick : tick now t = onComplete now (tickRecompute now t) := by
    simp [tick, hrun, h0]
  have hmode : (pause now (tickRecompute now t)).mode = t.mode := by
    rw [pause_mode, tickRecompute_mode]
  refine ⟨?_, ?_, ?_⟩
  · rw [htick]
    show Event.beep ::
        Event.notifyEv (modeStr (pause now (tickRecompute now t)).mode
          ++ " completed") "Time to switch!" ::
        (advanceMode now (pause now (tickRecompute now t))).2
      = _
    rw [advance_snd, hmode]
    rfl
  · intro hauto
    have hrun' : (tick now t).1.isRunning = false := by
      rw [htick]
      show (advanceMode now (pause now (tickRecompute now t))).1.isRunning
        = false
      exact (advance_not_running _ _ (by
        rw [pause_settings, tickRecompute_settings]; exact hauto)).1
    exact tick_of_not_running now2 _ hrun'
  · intro hauto e2 he2 hfuture
    have hrun' : (tick now t).1.isRunning = true := by
      rw [htick]
      exact (advance_running _ _ (by
        rw [pause_settings, tickRecompute_settings]; exact hauto)).1
    rw [tick_of_not_expired now2 (tick now t).1 e2 hrun' he2 hfuture]
    rfl

/-- A concrete running state 1 ms before expiry, for exercising C5. -/
def c5state : TimerState :=
  { settings := defaultEngineSettings
    mode := Mode.Work
    cycleInRound := 1
    round := 1
    isRunning := true
    startedAt := some 0
    endAt := some 1500000
    remainingMs := 1
    tickerActive := true
    lastTick := some 1499999 }

/-- Witness for C5: at the expiry tick the engine fires exactly the alarm,
the notification for the completed Work session, and the mode-advance
notification, and (auto-start off) the next tick is a pure no-op; a
`skip` emits no collaborator call. -/
theorem c5_skip_silent_completion_once_witness :
    ((skip 0 c5state).2.all (fun ev => !isAlarmEv ev) = true) ∧
    (tick 1500000 c5state).2
      = [Event.beep,
         Event.notifyEv "Work completed" "Time to switch!",
         Event.emit (snap (tick 1500000 c5state).1 true)] ∧
    tick 1500250 (tick 1500000 c5state).1 = ((tick 1500000 c5state).1, []) := by
  have h := c5_skip_silent_completion_once 1500000 1500250 c5state 1500000
  have h2 := h.2 rfl rfl (by decide)
  exact ⟨h.1, h2.1, h2.2.1 rfl⟩

/-! ## C6: `setSettings` -/

/-- C6.  `setSettings` called in any state leaves the mode unchanged,
installs the new configuration, resets `remainingMs` to the current
mode's full duration under the new configuration (progress is not
preserved), resumes running exactly when the engine had been running,
and always emits exactly one change notification. -/
theorem c6_setSettings_reconfigures (now : Nat) (next : Settings)
    (t : TimerState) :
    (setSettings now next t).1.mode = t.mode ∧
    (setSettings now next t).1.settings = next ∧
    (setSettings now next t).1.remainingMs = modeToMs next t.mode ∧
    (setSettings now next t).1.isRunning = t.isRunning ∧
    (setSettings now next t).2
      = [Event.emit (snap (setSettings now next t).1 true)] := by
  by_cases hr : t.isRunning <;>
    cases hEnd : t.endAt <;>
    simp [setSettings, pause, start, hr, hEnd]

/-! ## C10: `setSettings` emits `modeChanged = true` without a mode change -/

/-- C10.  The `modeChanged` flag of a snapshot does not imply the mode
changed: `setSettings` always emits exactly one snapshot carrying
`modeChanged = true`, while the mode it carries equals the mode before
the call; in particular, re-submitting the current configuration to a
paused engine holding its full duration leaves the state entirely
unchanged, yet the consumer still receives a `modeChanged = true`
snapshot whose mode equals the previous snapshot's mode. -/
theorem c10_modeChanged_without_mode_change (now : Nat) (next : Settings)
    (t : TimerState) :
    (setSettings now next t).2
      = [Event.emit (snap (setSettings now next t).1 true)] ∧
    (snap (setSettings now next t).1 true).modeChanged = true ∧
    (snap (setSettings now next t).1 true).mode = t.mode ∧
    (t.isRunning = false → t.remainingMs = modeToMs t.settings t.mode →
      (setSettings now t.settings t).1 = t) := by
  refine ⟨?_, rfl, ?_, ?_⟩
  · by_cases hr : t.isRunning <;>
      cases hEnd : t.endAt <;>
      simp [setSettings, pause, start, hr, hEnd]
  · show (setSettings now next t).1.mode = t.mode
    by_cases hr : t.isRunning <;>
      cases hEnd : t.endAt <;>
      simp [setSettings, pause, start, hr, hEnd]
  · intro hr hfull
    cases t
    simp_all [setSettings, pause, start]

/-- Witness for C10: a freshly constructed engine re-receives its own
configuration; the state is unchanged but the emitted snapshot still says
`modeChanged = true` with the same mode. -/
theorem c10_modeChanged_without_mode_change_witness :
    (setSettings 0 defaultEngineSettings (initState defaultEngineSettings)).1
      = initState defaultEngineSettings ∧
    (snap (setSettings 0 defaultEngineSettings
        (initState defaultEngineSettings)).1 true).modeChanged = true ∧
    (snap (setSettings 0 defaultEngineSettings
        (initState defaultEngineSettings)).1 true).mode
      = (initState defaultEngineSettings).mode := by
  have h := c10_modeChanged_without_mode_change 0 defaultEngineSettings
    (initState defaultEngineSettings)
  exact ⟨h.2.2.2 rfl rfl, h.2.1, h.2.2.1⟩

/-! ## Reachable engine states

The engine state is mutated only by its own operations; wall-clock time
(`Date.now()`) is non-decreasing across calls.  `ReachP P c t` says state
`t` is reachable at clock value `c` from a freshly constructed engine,
where every configuration installed along the way is valid and every
configuration change satisfies `P old new`. -/

inductive ReachP (P : Settings → Settings → Prop) : Nat → TimerState → Prop where
  | boot (s : Settings) (c : Nat) (hs : validSettings s = true) :
      ReachP P c (initState s)
  | startStep (c c' : Nat) (t : TimerState) (h : ReachP P c t) (hc : c ≤ c') :
      ReachP P c' (start c' t)
  | pauseStep (c c' : Nat) (t : TimerState) (h : ReachP P c t) (hc : c ≤ c') :
      ReachP P c' (pause c' t)
  | resetStep (c c' : Nat) (t : TimerState) (h : ReachP P c t) (hc : c ≤ c') :
      ReachP P c' (reset c' t)
  | skipStep (c c' : Nat) (t : TimerState) (h : ReachP P c t) (hc : c ≤ c') :
      ReachP P c' (skip c' t).1
  | tickStep (c c' : Nat) (t : TimerState) (h : ReachP P c t) (hc : c ≤ c') :
      ReachP P c' (tick c' t).1
  | configStep (c c' : Nat) (t : TimerState) (next : Settings)
      (h : ReachP P c t) (hc : c ≤ c') (hv : validSettings next = true)
      (hp : P t.settings next) :
      ReachP P c' (setSettings c' next t).1
  | modeStep (c c' : Nat) (t : TimerState) (m : Mode) (h : ReachP P c t)
      (hc : c ≤ c') :
      ReachP P c' (setMode c' m t).1

/-- Reachability with arbitrary valid configuration changes. -/
def Reach : Nat → TimerState → Prop := ReachP fun _ _ => True

/-- Reachability where configuration changes never alter
`cyclesPerRound`. -/
def ReachCpr : Nat → TimerState → Prop :=
  ReachP fun old new => new.cyclesPerRound = old.cyclesPerRound

/-! ## More field lemmas, for the reachability proofs -/

@[simp]
lemma reset_settings (now : Nat) (t : TimerState) :
    (reset now t).settings = t.settings := by
  simp [reset]

@[simp]
lemma reset_mode (now : Nat) (t : TimerState) : (reset now t).mode = t.mode := by
  simp [reset]

@[simp]
lemma reset_cycleInRound (now : Nat) (t : TimerState) :
    (reset now t).cycleInRound = t.cycleInRound := by
  simp [reset]

@[simp]
lemma reset_round (now : Nat) (t : TimerState) :
    (reset now t).round = t.round := by
  simp [reset]

lemma setSettings_state (now : Nat) (next : Settings) (t : TimerState) :
    (setSettings now next t).1.mode = t.mode ∧
    (setSettings now next t).1.settings = next ∧
    (setSettings now next t).1.remainingMs = modeToMs next t.mode ∧
    (setSettings now next t).1.isRunning = t.isRunning ∧
    (setSettings now next t).1.cycleInRound = t.cycleInRound ∧
    (setSettings now next t).1.round = t.round ∧
    (t.isRunning = true →
      (setSettings now next t).1.endAt = some (now + modeToMs next t.mode)) ∧
    (t.isRunning = false → (setSettings now next t).1.endAt = t.endAt) := by
  by_cases hr : t.isRunning <;>
    cases hEnd : t.endAt <;>
    simp [setSettings, pause, start, hr, hEnd]

lemma setMode_state (now : Nat) (m : Mode) (t : TimerState) :
    (setMode now m t).1.mode = m ∧
    (setMode now m t).1.settings = t.settings ∧
    (setMode now m t).1.remainingMs = modeToMs t.settings m ∧
    (setMode now m t).1.isRunning = false ∧
    (setMode now m t).1.endAt = none ∧
    (setMode now m t).1.cycleInRound = t.cycleInRound ∧
    (setMode now m t).1.round = t.round := by
  by_cases hr : t.isRunning <;>
    cases hEnd : t.endAt <;>
    simp [setMode, pause, hr, hEnd]

/-- How `_advanceMode` rewrites the counters: end-of-round (cycle reset,
round incremented), mid-round (cycle incremented), or break-to-work
(both unchanged). -/
lemma advance_counters (now : Nat) (t : TimerState) :
    (t.settings.cyclesPerRound ≤ t.cycleInRound ∧
      (advanceMode now t).1.cycleInRound = 1 ∧
      (advanceMode now t).1.round = t.round + 1) ∨
    (t.cycleInRound < t.settings.cyclesPerRound ∧
      (advanceMode now t).1.cycleInRound = t.cycleInRound + 1 ∧
      (advanceMode now t).1.round = t.round) ∨
    ((advanceMode now t).1.cycleInRound = t.cycleInRound ∧
      (advanceMode now t).1.round = t.round) := by
  cases hm : t.mode <;>
    by_cases hc : t.settings.cyclesPerRound ≤ t.cycleInRound <;>
    by_cases ha : t.settings.autoStart <;>
    simp [advanceMode, hm, hc, ha] <;>
    omega

lemma validSettings_fields (s : Settings) (h : validSettings s = true) :
    1 ≤ s.workMinutes ∧ 1 ≤ s.shortMinutes ∧ 1 ≤ s.longMinutes ∧
    1 ≤ s.cyclesPerRound := by
  simp only [validSettings, Bool.and_eq_true, decide_eq_true_eq] at h
  exact ⟨h.1.1.1, h.1.1.2, h.1.2, h.2⟩

/-! ## The state invariant (C7) -/

/-- Invariant: `endAt` is present exactly while running, `remainingMs` never exceeds
the current mode's full duration, and (while running) the absolute end
time is at most the current clock plus that duration. -/
def Inv (c : Nat) (t : TimerState) : Prop :=
  t.endAt.isSome = t.isRunning ∧
  t.remainingMs ≤ modeToMs t.settings t.mode ∧
  ∀ e : Nat, t.endAt = some e → e ≤ c + modeToMs t.settings t.mode

lemma inv_mono {c c' : Nat} {t : TimerState} (h : Inv c t) (hc : c ≤ c') :
    Inv c' t :=
  ⟨h.1, h.2.1, fun e he => le_trans (h.2.2 e he) (by omega)⟩

lemma inv_init (s : Settings) (c : Nat) : Inv c (initState s) := by
  refine ⟨rfl, ?_, ?_⟩
  · simp [initState]
  · intro e he
    simp [initState] at he

lemma inv_start {c : Nat} (c' : Nat) {t : TimerState} (h : Inv c t)
    (hc : c ≤ c') : Inv c' (start c' t) := by
  by_cases hr : t.isRunning
  · rw [start_of_running c' t hr]
    exact inv_mono h hc
  · have hr' : t.isRunning = false := by simpa using hr
    obtain ⟨h1, h2, h3⟩ := h
    refine ⟨?_, ?_, ?_⟩
    · simp [start, hr']
    · simpa using h2
    · intro e he
      rw [start_endAt_of_not_running c' t hr'] at he
      have he' : e = c' + t.remainingMs := (Option.some.inj he).symm
      simp only [start_settings, start_mode]
      omega

lemma inv_pause {c : Nat} (c' : Nat) {t : TimerState} (h : Inv c t)
    (hc : c ≤ c') : Inv c' (pause c' t) := by
  by_cases hr : t.isRunning
  · obtain ⟨h1, h2, h3⟩ := h
    cases hEnd : t.endAt with
    | none =>
      rw [hEnd, hr] at h1
      simp at h1
    | some e =>
      have hbound := h3 e hEnd
      refine ⟨?_, ?_, ?_⟩
      · rw [pause_endAt_of_running c' t hr, pause_isRunning]
        rfl
      · rw [pause_remainingMs_of_endAt c' t e hr hEnd]
        simp only [pause_settings, pause_mode]
        omega
      · intro e' he'
        rw [pause_endAt_of_running c' t hr] at he'
        simp at he'
  · rw [pause_of_not_running c' t (by simpa using hr)]
    exact inv_mono h hc

lemma inv_advance (c' : Nat) (t : TimerState) : Inv c' (advanceMode c' t).1 := by
  have hrem := advance_remainingMs c' t
  by_cases ha : t.settings.autoStart
  · obtain ⟨hrun, hend⟩ := advance_running c' t ha
    refine ⟨?_, ?_, ?_⟩
    · rw [hend, hrun]
      rfl
    · rw [hrem]
      simp only [advance_settings]
      exact le_refl _
    · intro e he
      rw [hend] at he
      have he' : e = c' + (advanceMode c' t).1.remainingMs :=
        (Option.some.inj he).symm
      rw [hrem] at he'
      simp only [advance_settings]
      omega
  · obtain ⟨hrun, hend⟩ := advance_not_running c' t (by simpa using ha)
    refine ⟨?_, ?_, ?_⟩
    · rw [hend, hrun]
      rfl
    · rw [hrem]
      simp only [advance_settings]
      exact le_refl _
    · intro e he
      rw [hend] at he
      simp at he

lemma inv_reset {c : Nat} (c' : Nat) {t : TimerState} (h : Inv c t)
    (hc : c ≤ c') : Inv c' (reset c' t) := by
  refine ⟨?_, ?_, ?_⟩
  · simp [reset]
  · simp [reset]
  · intro e he
    simp [reset] at he

lemma inv_tick {c : Nat} (c' : Nat) {t : TimerState} (h : Inv c t)
    (hc : c ≤ c') : Inv c' (tick c' t).1 := by
  by_cases hr : t.isRunning
  · obtain ⟨h1, h2, h3⟩ := h
    cases hEnd : t.endAt with
    | none =>
      rw [hEnd, hr] at h1
      simp at h1
    | some e =>
      have hrem := tickRecompute_remainingMs_of_endAt c' t e hEnd
      have hbound := h3 e hEnd
      by_cases h0 : (tickRecompute c' t).remainingMs = 0
      · have htick : tick c' t = onComplete c' (tickRecompute c' t) := by
          simp [tick, hr, h0]
        rw [htick]
        exact inv_advance c' (pause c' (tickRecompute c' t))
      · have htick : tick c' t
            = (tickRecompute c' t,
               [Event.emit (snap (tickRecompute c' t) false)]) := by
          simp [tick, hr, h0]
        rw [htick]
        refine ⟨?_, ?_, ?_⟩
        · rw [tickRecompute_endAt, tickRecompute_isRunning, hEnd, hr]
          rfl
        · rw [hrem]
          simp only [tickRecompute_settings, tickRecompute_mode]
          omega
        · intro e' he'
          rw [tickRecompute_endAt, hEnd] at he'
          have he'' : e' = e := (Option.some.inj he').symm
          simp only [tickRecompute_settings, tickRecompute_mode]
          omega
  · rw [tick_of_not_running c' t (by simpa using hr)]
    exact inv_mono h hc

lemma inv_setSettings {c : Nat} (c' : Nat) (next : Settings) {t : TimerState}
    (h : Inv c t) (hc : c ≤ c') : Inv c' (setSettings c' next t).1 := by
  obtain ⟨hm, hs, hrm, hrun, _, _, hendT, hendF⟩ := setSettings_state c' next t
  by_cases hr : t.isRunning
  · refine ⟨?_, ?_, ?_⟩
    · simp [hendT hr, hrun, hr]
    · rw [hrm, hs, hm]
    · intro e he
      rw [hendT hr] at he
      have he' : e = c' + modeToMs next t.mode := (Option.some.inj he).symm
      rw [hs, hm]
      omega
  · have hr' : t.isRunning = false := by simpa using hr
    refine ⟨?_, ?_, ?_⟩
    · rw [hendF hr', hrun, hr']
      have h1 := h.1
      rw [hr'] at h1
      exact h1
    · rw [hrm, hs, hm]
    · intro e he
      rw [hendF hr'] at he
      have h1 := h.1
      rw [he, hr'] at h1
      simp at h1

lemma inv_setMode (c' : Nat) (m : Mode) (t : TimerState) :
    Inv c' (setMode c' m t).1 := by
  obtain ⟨hm, hs, hrm, hrun, hend, _, _⟩ := setMode_state c' m t
  refine ⟨?_, ?_, ?_⟩
  · simp [hend, hrun]
  · rw [hrm, hs, hm]
  · intro e he
    rw [hend] at he
    simp at he

/-- Every reachable engine state satisfies the state invariant. -/
lemma inv_reach {P : Settings → Settings → Prop} {c : Nat} {t : TimerState}
    (h : ReachP P c t) : Inv c t := by
  induction h with
  | boot s c hs => exact inv_init s c
  | startStep c c' t h hc ih => exact inv_start c' ih hc
  | pauseStep c c' t h hc ih => exact inv_pause c' ih hc
  | resetStep c c' t h hc ih => exact inv_reset c' ih hc
  | skipStep c c' t h hc ih => exact inv_advance c' t
  | tickStep c c' t h hc ih => exact inv_tick c' ih hc
  | configStep c c' t next h hc hv hp ih => exact inv_setSettings c' next ih hc
  | modeStep c c' t m h hc ih => exact inv_setMode c' m t

/-! ## Counter invariants (C8, C9) -/

lemma base_advance (now : Nat) (t : TimerState)
    (h2 : 1 ≤ t.cycleInRound) (h3 : 1 ≤ t.round) :
    1 ≤ (advanceMode now t).1.cycleInRound ∧
    1 ≤ (advanceMode now t).1.round := by
  rcases advance_counters now t with ⟨_, ha, hb⟩ | ⟨_, ha, hb⟩ | ⟨ha, hb⟩ <;>
    rw [ha, hb] <;> constructor <;> omega

/-- Valid settings, `cycleInRound ≥ 1` and `round ≥ 1` hold in every
reachable state, whatever the configuration changes along the way. -/
lemma base_reach {P : Settings → Settings → Prop} {c : Nat} {t : TimerState}
    (h : ReachP P c t) :
    validSettings t.settings = true ∧ 1 ≤ t.cycleInRound ∧ 1 ≤ t.round := by
  induction h with
  | boot s c hs =>
    exact ⟨hs, by simp [initState], by simp [initState]⟩
  | startStep c c' t h hc ih =>
    obtain ⟨i1, i2, i3⟩ := ih
    exact ⟨by simpa using i1, by simpa using i2, by simpa using i3⟩
  | pauseStep c c' t h hc ih =>
    obtain ⟨i1, i2, i3⟩ := ih
    exact ⟨by simpa using i1, by simpa using i2, by simpa using i3⟩
  | resetStep c c' t h hc ih =>
    obtain ⟨i1, i2, i3⟩ := ih
    exact ⟨by simpa using i1, by simpa using i2, by simpa using i3⟩
  | skipStep c c' t h hc ih =>
    obtain ⟨i1, i2, i3⟩ := ih
    have hb := base_advance c' t i2 i3
    refine ⟨?_, hb.1, hb.2⟩
    show validSettings (advanceMode c' t).1.settings = true
    simpa using i1
  | tickStep c c' t h hc ih =>
    obtain ⟨i1, i2, i3⟩ := ih
    by_cases hr : t.isRunning
    · by_cases h0 : (tickRecompute c' t).remainingMs = 0
      · have htick : tick c' t = onComplete c' (tickRecompute c' t) := by
          simp [tick, hr, h0]
        rw [htick]
        have hb := base_advance c' (pause c' (tickRecompute c' t))
          (by simpa using i2) (by simpa using i3)
        refine ⟨?_, hb.1, hb.2⟩
        show validSettings
          (advanceMode c' (pause c' (tickRecompute c' t))).1.settings = true
        simpa using i1
      · have htick : tick c' t
            = (tickRecompute c' t,
               [Event.emit (snap (tickRecompute c' t) false)]) := by
          simp [tick, hr, h0]
        rw [htick]
        exact ⟨by simpa using i1, by simpa using i2, by simpa using i3⟩
    · rw [tick_of_not_running c' t (by simpa using hr)]
      exact ⟨i1, i2, i3⟩
  | configStep c c' t next h hc hv hp ih =>
    obtain ⟨_, hs, _, _, hcy, hrd, _, _⟩ := setSettings_state c' next t
    exact ⟨by rw [hs]; exact hv, by rw [hcy]; exact ih.2.1,
      by rw [hrd]; exact ih.2.2⟩
  | modeStep c c' t m h hc ih =>
    obtain ⟨_, hs, _, _, _, hcy, hrd⟩ := setMode_state c' m t
    exact ⟨by rw [hs]; exact ih.1, by rw [hcy]; exact ih.2.1,
      by rw [hrd]; exact ih.2.2⟩

lemma cyc_advance (now : Nat) (t : TimerState)
    (hv : 1 ≤ t.settings.cyclesPerRound)
    (hcyc : t.cycleInRound ≤ t.settings.cyclesPerRound) :
    (advanceMode now t).1.cycleInRound
      ≤ (advanceMode now t).1.settings.cyclesPerRound := by
  rw [advance_settings]
  rcases advance_counters now t with ⟨hg, ha, _⟩ | ⟨hg, ha, _⟩ | ⟨ha, _⟩ <;>
    rw [ha] <;> omega

/-- As long as configuration changes never alter `cyclesPerRound`,
`cycleInRound` never exceeds it. -/
lemma cyc_reach_cpr {c : Nat} {t : TimerState}
    (h : ReachP (fun old new => new.cyclesPerRound = old.cyclesPerRound) c t) :
    t.cycleInRound ≤ t.settings.cyclesPerRound := by
  induction h with
  | boot s c hs =>
    have := (validSettings_fields s hs).2.2.2
    simpa [initState] using this
  | startStep c c' t h hc ih => simpa using ih
  | pauseStep c c' t h hc ih => simpa using ih
  | resetStep c c' t h hc ih => simpa using ih
  | skipStep c c' t h hc ih =>
    have hbase := base_reach h
    exact cyc_advance c' t (validSettings_fields _ hbase.1).2.2.2 ih
  | tickStep c c' t h hc ih =>
    have hbase := base_reach h
    by_cases hr : t.isRunning
    · by_cases h0 : (tickRecompute c' t).remainingMs = 0
      · have htick : tick c' t = onComplete c' (tickRecompute c' t) := by
          simp [tick, hr, h0]
        rw [htick]
        show (advanceMode c' (pause c' (tickRecompute c' t))).1.cycleInRound
          ≤ (advanceMode c' (pause c' (tickRecompute c' t))).1.settings.cyclesPerRound
        exact cyc_advance c' (pause c' (tickRecompute c' t))
          (by simpa using (validSettings_fields _ hbase.1).2.2.2)
          (by simpa using ih)
      · have htick : tick c' t
            = (tickRecompute c' t,
               [Event.emit (snap (tickRecompute c' t) false)]) := by
          simp [tick, hr, h0]
        rw [htick]
        simpa using ih
    · rw [tick_of_not_running c' t (by simpa using hr)]
      exact ih
  | configStep c c' t next h hc hv hp ih =>
    obtain ⟨_, hs, _, _, hcy, _, _, _⟩ := setSettings_state c' next t
    rw [hcy, hs, hp]
    exact ih
  | modeStep c c' t m h hc ih =>
    obtain ⟨_, hs, _, _, _, hcy, _⟩ := setMode_state c' m t
    rw [hcy, hs]
    exact ih

/-! ## C7: state invariant of every reachable state -/

/-- C7.  From the initial state (Work, round 1, cycle 1, paused, full work
duration remaining), every sequence of engine operations preserves:
`endAt` is present exactly when `isRunning`, and `remainingMs` stays
between 0 and the full configured duration of the current mode. -/
theorem c7_state_invariant (c : Nat) (t : TimerState) (h : Reach c t) :
    (t.endAt.isSome = true ↔ t.isRunning = true) ∧
    0 ≤ t.remainingMs ∧
    t.remainingMs ≤ modeToMs t.settings t.mode := by
  have hi : Inv c t := inv_reach h
  refine ⟨?_, Nat.zero_le _, hi.2.1⟩
  rw [hi.1]

/-- Witness for C7 at a concrete reachable state (a fresh engine started
at time 5): running with `endAt` present, remaining time within the Work
duration. -/
theorem c7_state_invariant_witness :
    ((start 5 (initState defaultEngineSettings)).endAt.isSome = true ↔
      (start 5 (initState defaultEngineSettings)).isRunning = true) ∧
    0 ≤ (start 5 (initState defaultEngineSettings)).remainingMs ∧
    (start 5 (initState defaultEngineSettings)).remainingMs
      ≤ modeToMs (start 5 (initState defaultEngineSettings)).settings
          (start 5 (initState defaultEngineSettings)).mode :=
  c7_state_invariant 5 (start 5 (initState defaultEngineSettings))
    (ReachP.startStep 0 5 (initState defaultEngineSettings)
      (ReachP.boot defaultEngineSettings 0 (by decide)) (by omega))

/-! ## C8: bounds on `cycleInRound` -/

/-- A valid configuration with 2 cycles per round. -/
def c8cfgA : Settings :=
  { workMinutes := 25, shortMinutes := 5, longMinutes := 15,
    cyclesPerRound := 2, autoStart := false }

/-- The same configuration with `cyclesPerRound` lowered to 1. -/
def c8cfgB : Settings :=
  { workMinutes := 25, shortMinutes := 5, longMinutes := 15,
    cyclesPerRound := 1, autoStart := false }

/-- Skip once (cycle becomes 2 of 2), then reconfigure to 1 cycle per
round: `setSettings` does not clamp `cycleInRound`. -/
def c8state : TimerState :=
  (setSettings 0 c8cfgB (skip 0 (initState c8cfgA)).1).1

/-- Counterexample to C8 as stated: a state reached with a valid
configuration change lowering `cyclesPerRound` has
`cycleInRound = 2 > 1 = cyclesPerRound`. -/
theorem c8_counterexample :
    Reach 0 c8state ∧
    c8state.cycleInRound = 2 ∧
    c8state.settings.cyclesPerRound = 1 ∧
    ¬ c8state.cycleInRound ≤ c8state.settings.cyclesPerRound := by
  refine ⟨?_, by decide, by decide, by decide⟩
  exact ReachP.configStep 0 0 (skip 0 (initState c8cfgA)).1 c8cfgB
    (ReachP.skipStep 0 0 (initState c8cfgA)
      (ReachP.boot c8cfgA 0 (by decide)) (le_refl 0))
    (le_refl 0) (by decide) trivial

/-- C8 (amended).  In every reachable state `cycleInRound ≥ 1`; and
`cycleInRound ≤ cyclesPerRound` holds in every state reachable when
configuration changes never alter `cyclesPerRound` (the code does not
clamp `cycleInRound` when a configuration change lowers
`cyclesPerRound`). -/
theorem c8_cycle_in_round_bounds (c : Nat) (t : TimerState) :
    (Reach c t → 1 ≤ t.cycleInRound) ∧
    (ReachCpr c t →
      1 ≤ t.cycleInRound ∧ t.cycleInRound ≤ t.settings.cyclesPerRound) := by
  constructor
  · intro h
    exact (base_reach h).2.1
  · intro h
    exact ⟨(base_reach h).2.1, cyc_reach_cpr h⟩

/-- Witness for C8 (amended) at the freshly constructed engine. -/
theorem c8_cycle_in_round_bounds_witness :
    1 ≤ (initState defaultEngineSettings).cycleInRound ∧
    (initState defaultEngineSettings).cycleInRound
      ≤ (initState defaultEngineSettings).settings.cyclesPerRound := by
  have h := c8_cycle_in_round_bounds 0 (initState defaultEngineSettings)
  exact ⟨h.1 (ReachP.boot defaultEngineSettings 0 (by decide)),
    (h.2 (ReachP.boot defaultEngineSettings 0 (by decide))).2⟩

/-! ## C9: `round` and entering LongBreak -/

/-- The mode-button handler applied at the initial state, selecting
LongBreak directly. -/
def c9state : TimerState :=
  (setMode 0 Mode.Long (initState defaultEngineSettings)).1

/-- Counterexample to C9 as stated: direct mode selection (`setMode`)
reaches LongBreak without incrementing `round` (it stays 1 instead of
becoming 2). -/
theorem c9_counterexample :
    Reach 0 c9state ∧
    c9state.mode = Mode.Long ∧
    (initState defaultEngineSettings).round = 1 ∧
    ¬ c9state.round = (initState defaultEngineSettings).round + 1 := by
  refine ⟨?_, by decide, by decide, by decide⟩
  exact ReachP.modeStep 0 0 (initState defaultEngineSettings) Mode.Long
    (ReachP.boot defaultEngineSettings 0 (by decide)) (le_refl 0)

/-- C9 (amended).  `round ≥ 1` in every reachable state; every
mode-advance (skip or natural completion) that results in LongBreak
increments `round` by exactly 1; direct mode selection (`setMode`) never
changes `round`, even when it selects LongBreak. -/
theorem c9_round_long_break (c now : Nat) (t : TimerState) :
    (Reach c t → 1 ≤ t.round) ∧
    ((advanceMode now t).1.mode = Mode.Long →
      (advanceMode now t).1.round = t.round + 1) ∧
    (∀ m : Mode, (setMode now m t).1.round = t.round) := by
  refine ⟨fun h => (base_reach h).2.2, ?_,
    fun m => (setMode_state now m t).2.2.2.2.2.2⟩
  cases hm : t.mode <;>
    by_cases hc2 : t.settings.cyclesPerRound ≤ t.cycleInRound <;>
    by_cases ha : t.settings.autoStart <;>
    simp [advanceMode, hm, hc2, ha]

/-- Witness for C9 (amended): the fresh engine has round 1; advancing a
cycle-4-of-4 Work state enters LongBreak and bumps the round from 1 to 2;
selecting LongBreak directly leaves the round unchanged. -/
theorem c9_round_long_break_witness :
    1 ≤ (initState defaultEngineSettings).round ∧
    (advanceMode 0 c1state).1.mode = Mode.Long ∧
    (advanceMode 0 c1state).1.round = c1state.round + 1 ∧
    (setMode 0 Mode.Long c1state).1.round = c1state.round := by
  have hA := c9_round_long_break 0 0 (initState defaultEngineSettings)
  have hB := c9_round_long_break 0 0 c1state
  exact ⟨hA.1 (ReachP.boot defaultEngineSettings 0 (by decide)),
    by decide, hB.2.1 (by decide), hB.2.2 Mode.Long⟩

end Pomodoro
